import Mathlib

/-!
Verification of the FIFO PNL calculation core of the sova-pnl-python
repository, as a shallow embedding in Lean 4.

Modelling conventions:
* Python floats are modelled as exact rationals (ℚ).
* `round(x, 2)` / `round(x, 6)` presentation rounding at the output
  boundary is omitted: all values are exact rationals, so the rounding
  is a display concern only.
* Warning strings are modelled as a structured `Warning` type carrying
  the same data the Python f-strings interpolate (transfer number,
  timestamp, fallback price, unmatched quantity, mismatch figures).
* `dict` records become structures; falsy checks (`x or 0.0`,
  `if t['delta_quote']`) become `Option.getD 0` (None and 0 both map
  to 0, exactly as in Python).
-/

namespace SovaPnl

/-! ### utils.py -/

/-- Embedding of `utils.format_balance`: scale raw balance by `10^decimals`
(`None` inputs give 0; `balance == 0` gives 0, which the formula
also gives). -/
def format_balance : Option ℤ → Option ℕ → ℚ
  | none, _ => 0
  | some _, none => 0
  | some balance, some decimals => (balance : ℚ) / (10 : ℚ) ^ decimals

/-- Embedding of `utils.calculate_roi`: ROI percentage, 0 when `invested == 0`. -/
def calculate_roi (invested current_value : ℚ) : ℚ :=
  if invested = 0 then 0 else (current_value - invested) / invested * 100

/-- Embedding of `utils.safe_divide` with the default `default = 0.0` used at every
call site in the engine. -/
def safe_divide (numerator denominator : ℚ) : ℚ :=
  if denominator = 0 then 0 else numerator / denominator

/-- Embedding of `utils.is_approximately_equal`: `abs(a - b) <= tolerance`. -/
def is_approximately_equal (a b tolerance : ℚ) : Prop :=
  |a - b| ≤ tolerance

instance (a b tolerance : ℚ) : Decidable (is_approximately_equal a b tolerance) := by
  unfold is_approximately_equal
  infer_instance

/-! ### types.py : data model -/

inductive TransferType where
  | IN : TransferType
  | OUT : TransferType
  deriving DecidableEq

/-- The `TokenAsset` snapshot (the fields the engine reads). -/
structure TokenAsset where
  ticker : String
  address : String
  balance : ℚ
  current_price : ℚ
  current_value : ℚ
  deriving DecidableEq

/-- A `TokenTransfer` (the fields the engine reads). `delta_quote` may be
absent (None) or zero, both meaning "unknown price". -/
structure TokenTransfer where
  timestamp : ℕ
  transfer_type : TransferType
  delta_raw : ℤ
  delta_quote : Option ℚ
  gas_quote : Option ℚ
  decimals : ℕ
  deriving DecidableEq

/-- A `FIFOPosition`: one lot in the buy queue. -/
structure FIFOPosition where
  qty : ℚ
  cost_per_unit : ℚ
  gas_usd : ℚ
  deriving DecidableEq

/-- Structured counterpart of the warning strings appended by
`pnl_engine.py`, carrying the interpolated data. -/
inductive Warning where
  | missing_price (transfer_no : ℕ) (timestamp : ℕ) (fallback_price : ℚ)
  | sell_without_prior_buy (transfer_no : ℕ)
  | no_sale_price (transfer_no : ℕ)
  | sold_more_than_bought (unmatched : ℚ)
  | balance_mismatch (queue_qty actual diff : ℚ)
  | no_transfer_history (balance : ℚ)
  deriving DecidableEq

/-- The `TokenPNL` result record of `pnl_engine.py`. -/
structure TokenPNL where
  ticker : String
  address : String
  current_balance : ℚ
  current_price : ℚ
  current_value : ℚ
  avg_cost_basis : ℚ
  total_invested : ℚ
  realized_pnl : ℚ
  unrealized_pnl : ℚ
  total_pnl : ℚ
  roi_percent : ℚ
  positions_opened : ℕ
  positions_closed : ℕ
  has_warnings : Bool
  warnings : List Warning
  deriving DecidableEq

/-! ### pnl_engine.py : PNLCalculator.calculate_token_pnl -/

/-- The mutable locals of the transfer loop in
`PNLCalculator.calculate_token_pnl`. -/
structure EngineState where
  buy_queue : List FIFOPosition
  realized_pnl : ℚ
  total_invested : ℚ
  positions_opened : ℕ
  positions_closed : ℕ
  warnings : List Warning
  deriving DecidableEq

/-- The FIFO matching loop
(`while remaining_sell > 0 and buy_queue:` in `calculate_token_pnl`).
Returns the updated queue, the realized PNL accumulated by the loop and
the final `remaining_sell`.

In the last branch (`position.qty` stays positive) the source loop runs
one more test and exits, because there `sell_from_this = remaining_sell`
— `min remaining_sell position.qty < position.qty` forces it — so the
new `remaining_sell` is 0. -/
def fifo_match (sell_value_usd sell_qty sell_gas_usd : ℚ) :
    List FIFOPosition → ℚ → List FIFOPosition × ℚ × ℚ
  | [], remaining_sell => ([], 0, remaining_sell)
  | position :: rest, remaining_sell =>
    if remaining_sell ≤ 0 then (position :: rest, 0, remaining_sell)
    else
      let sell_from_this := min remaining_sell position.qty
      let entry_cost := sell_from_this * position.cost_per_unit
      let exit_value := sell_from_this * safe_divide sell_value_usd sell_qty
      let gas_portion := sell_gas_usd * safe_divide sell_from_this sell_qty
      let pnl_this := exit_value - entry_cost - gas_portion
      if position.qty - sell_from_this ≤ 0 then
        let r := fifo_match sell_value_usd sell_qty sell_gas_usd rest
          (remaining_sell - sell_from_this)
        (r.1, pnl_this + r.2.1, r.2.2)
      else
        ({ position with qty := position.qty - sell_from_this } :: rest,
          pnl_this, remaining_sell - sell_from_this)

/-- One iteration of the `for i, t in enumerate(transfers)` loop of
`calculate_token_pnl`; `i` is the 0-based index (warnings print `i+1`). -/
def process_transfer (current_price : ℚ) (s : EngineState) (i : ℕ)
    (t : TokenTransfer) : EngineState :=
  let qty := |format_balance (some t.delta_raw) (some t.decimals)|
  let usd_value := |t.delta_quote.getD 0|
  let gas_usd := t.gas_quote.getD 0
  if qty ≤ 0 then s
  else
    match t.transfer_type with
    | TransferType.IN =>
      let cost_per_unit :=
        if usd_value = 0 then current_price else (usd_value + gas_usd) / qty
      { s with
        positions_opened := s.positions_opened + 1,
        warnings :=
          if usd_value = 0 then
            s.warnings ++ [Warning.missing_price (i + 1) t.timestamp current_price]
          else s.warnings,
        buy_queue := s.buy_queue ++ [⟨qty, cost_per_unit, gas_usd⟩],
        total_invested := s.total_invested + (usd_value + gas_usd) }
    | TransferType.OUT =>
      if s.buy_queue = [] then
        { s with warnings := s.warnings ++ [Warning.sell_without_prior_buy (i + 1)] }
      else
        let sell_qty := qty
        let sell_value_usd :=
          if usd_value = 0 then sell_qty * current_price else usd_value
        let warnings1 :=
          if usd_value = 0 then s.warnings ++ [Warning.no_sale_price (i + 1)]
          else s.warnings
        let r := fifo_match sell_value_usd sell_qty gas_usd s.buy_queue sell_qty
        let warnings2 :=
          if r.2.2 > 0 then warnings1 ++ [Warning.sold_more_than_bought r.2.2]
          else warnings1
        { s with
          positions_closed := s.positions_closed + 1,
          buy_queue := r.1,
          realized_pnl := s.realized_pnl + r.2.1,
          warnings := warnings2 }

/-- The whole transfer loop starting from state `s` at index `i`. -/
def process_from (current_price : ℚ) : EngineState → ℕ → List TokenTransfer → EngineState
  | s, _, [] => s
  | s, i, t :: ts => process_from current_price (process_transfer current_price s i t) (i + 1) ts

/-- Initial loop state: empty queue, all accumulators zero. -/
def init_state : EngineState := ⟨[], 0, 0, 0, 0, []⟩

/-- Run the transfer loop of `calculate_token_pnl` from the start. -/
def run_engine (current_price : ℚ) (transfers : List TokenTransfer) : EngineState :=
  process_from current_price init_state 0 transfers

/-- Embedding of `PNLCalculator._create_pnl_result` (presentation rounding omitted). -/
def create_pnl_result (token : TokenAsset) (avg_cost_basis total_invested
    realized_pnl unrealized_pnl : ℚ) (positions_opened positions_closed : ℕ)
    (warnings : List Warning) : TokenPNL :=
  { ticker := token.ticker,
    address := token.address,
    current_balance := token.balance,
    current_price := token.current_price,
    current_value := token.current_value,
    avg_cost_basis := avg_cost_basis,
    total_invested := total_invested,
    realized_pnl := realized_pnl,
    unrealized_pnl := unrealized_pnl,
    total_pnl := realized_pnl + unrealized_pnl,
    roi_percent :=
      if total_invested > 0 then
        calculate_roi total_invested (token.current_value + realized_pnl)
      else 0,
    positions_opened := positions_opened,
    positions_closed := positions_closed,
    has_warnings := !warnings.isEmpty,
    warnings := warnings }

/-- Embedding of `PNLCalculator._create_empty_pnl_result`. -/
def create_empty_pnl_result (token : TokenAsset) : TokenPNL :=
  { ticker := token.ticker,
    address := token.address,
    current_balance := 0,
    current_price := token.current_price,
    current_value := 0,
    avg_cost_basis := 0,
    total_invested := 0,
    realized_pnl := 0,
    unrealized_pnl := 0,
    total_pnl := 0,
    roi_percent := 0,
    positions_opened := 0,
    positions_closed := 0,
    has_warnings := false,
    warnings := [] }

/-- Embedding of `PNLCalculator.calculate_token_pnl` from `pnl_engine.py`;
`price_tolerance` is `config.price_tolerance`. -/
def calculate_token_pnl (price_tolerance : ℚ) (token : TokenAsset)
    (transfers : List TokenTransfer) : TokenPNL :=
  if transfers = [] then
    if token.balance > 0 then
      create_pnl_result token 0 0 0 token.current_value 0 0
        [Warning.no_transfer_history token.balance]
    else
      create_empty_pnl_result token
  else
    let s := run_engine token.current_price transfers
    let remaining_qty := (s.buy_queue.map FIFOPosition.qty).sum
    let remaining_cost := (s.buy_queue.map (fun p => p.qty * p.cost_per_unit)).sum
    let tolerance := token.balance * price_tolerance
    let warnings :=
      if ¬ is_approximately_equal remaining_qty token.balance tolerance then
        s.warnings ++
          [Warning.balance_mismatch remaining_qty token.balance
            |remaining_qty - token.balance|]
      else s.warnings
    let avg_cost_basis := safe_divide remaining_cost remaining_qty
    let unrealized_pnl := (token.current_price - avg_cost_basis) * token.balance
    create_pnl_result token avg_cost_basis s.total_invested s.realized_pnl
      unrealized_pnl s.positions_opened s.positions_closed warnings

/-! ### Plain-division matching loop, as written in the prototype
`pnl_calculator/pnl/calculator.py` (its loop divides with `/`, not with
`safe_divide`). -/

/-- Variant of `fifo_match` with `safe_divide` replaced by `/`. -/
def fifo_match_div (sell_value_usd sell_qty sell_gas_usd : ℚ) :
    List FIFOPosition → ℚ → List FIFOPosition × ℚ × ℚ
  | [], remaining_sell => ([], 0, remaining_sell)
  | position :: rest, remaining_sell =>
    if remaining_sell ≤ 0 then (position :: rest, 0, remaining_sell)
    else
      let sell_from_this := min remaining_sell position.qty
      let entry_cost := sell_from_this * position.cost_per_unit
      let exit_value := sell_from_this * (sell_value_usd / sell_qty)
      let gas_portion := sell_gas_usd * (sell_from_this / sell_qty)
      let pnl_this := exit_value - entry_cost - gas_portion
      if position.qty - sell_from_this ≤ 0 then
        let r := fifo_match_div sell_value_usd sell_qty sell_gas_usd rest
          (remaining_sell - sell_from_this)
        (r.1, pnl_this + r.2.1, r.2.2)
      else
        ({ position with qty := position.qty - sell_from_this } :: rest,
          pnl_this, remaining_sell - sell_from_this)

/-! ### Division-instrumented engine (for the division-safety claim).

In ℚ the value of `x / 0` is 0, which coincides with `safe_divide`'s
default, so a plain equality between the engine and a `/`-variant would
hold even if a division by zero were executed. To make the safety claim
meaningful, every division the engine can execute — the `cost_per_unit`
division of the IN branch and the two `safe_divide` calls inside the
matching loop — is replaced by `checked_div`, which fails (`none`) on a
zero denominator, and the failure is propagated through the run in
`Option`. The instrumented engine returns `some` of the real engine's
state exactly when no executed division had a zero denominator. -/

/-- Division that fails on a zero denominator instead of defaulting. -/
def checked_div (numerator denominator : ℚ) : Option ℚ :=
  if denominator = 0 then none else some (numerator / denominator)

/-- The matching loop of `fifo_match` with both of its `safe_divide`
calls replaced by `checked_div`: any iteration of the loop body divides
by `sell_qty`, and fails here if `sell_qty = 0`. -/
def fifo_match_checked (sell_value_usd sell_qty sell_gas_usd : ℚ) :
    List FIFOPosition → ℚ → Option (List FIFOPosition × ℚ × ℚ)
  | [], remaining_sell => some ([], 0, remaining_sell)
  | position :: rest, remaining_sell =>
    if remaining_sell ≤ 0 then some (position :: rest, 0, remaining_sell)
    else
      let sell_from_this := min remaining_sell position.qty
      match checked_div sell_value_usd sell_qty,
            checked_div sell_from_this sell_qty with
      | some unit_exit, some gas_frac =>
        let pnl_this := sell_from_this * unit_exit
          - sell_from_this * position.cost_per_unit
          - sell_gas_usd * gas_frac
        if position.qty - sell_from_this ≤ 0 then
          match fifo_match_checked sell_value_usd sell_qty sell_gas_usd rest
              (remaining_sell - sell_from_this) with
          | some r => some (r.1, pnl_this + r.2.1, r.2.2)
          | none => none
        else
          some ({ position with qty := position.qty - sell_from_this } :: rest,
            pnl_this, remaining_sell - sell_from_this)
      | _, _ => none

/-- The engine step with every division it can execute replaced by
`checked_div` (the IN branch's `cost_per_unit` division and the
matching loop's divisions); `none` marks an executed division by
zero. -/
def process_transfer_checked (current_price : ℚ) (s : EngineState) (i : ℕ)
    (t : TokenTransfer) : Option EngineState :=
  let qty := |format_balance (some t.delta_raw) (some t.decimals)|
  let usd_value := |t.delta_quote.getD 0|
  let gas_usd := t.gas_quote.getD 0
  if qty ≤ 0 then some s
  else
    match t.transfer_type with
    | TransferType.IN =>
      match (if usd_value = 0 then some current_price
             else checked_div (usd_value + gas_usd) qty) with
      | none => none
      | some cost_per_unit =>
        some { s with
          positions_opened := s.positions_opened + 1,
          warnings :=
            if usd_value = 0 then
              s.warnings ++ [Warning.missing_price (i + 1) t.timestamp current_price]
            else s.warnings,
          buy_queue := s.buy_queue ++ [⟨qty, cost_per_unit, gas_usd⟩],
          total_invested := s.total_invested + (usd_value + gas_usd) }
    | TransferType.OUT =>
      if s.buy_queue = [] then
        some { s with warnings := s.warnings ++ [Warning.sell_without_prior_buy (i + 1)] }
      else
        let sell_qty := qty
        let sell_value_usd :=
          if usd_value = 0 then sell_qty * current_price else usd_value
        let warnings1 :=
          if usd_value = 0 then s.warnings ++ [Warning.no_sale_price (i + 1)]
          else s.warnings
        match fifo_match_checked sell_value_usd sell_qty gas_usd s.buy_queue sell_qty with
        | none => none
        | some r =>
          some { s with
            positions_closed := s.positions_closed + 1,
            buy_queue := r.1,
            realized_pnl := s.realized_pnl + r.2.1,
            warnings :=
              if r.2.2 > 0 then warnings1 ++ [Warning.sold_more_than_bought r.2.2]
              else warnings1 }

/-- The transfer loop built on the checked step; a failed step aborts
the whole run with `none`. -/
def process_from_checked (current_price : ℚ) :
    EngineState → ℕ → List TokenTransfer → Option EngineState
  | s, _, [] => some s
  | s, i, t :: ts =>
    match process_transfer_checked current_price s i t with
    | none => none
    | some sNext => process_from_checked current_price sNext (i + 1) ts

/-- Variant of `run_engine` built on the checked step. -/
def run_engine_checked (current_price : ℚ) (transfers : List TokenTransfer) :
    Option EngineState :=
  process_from_checked current_price init_state 0 transfers

/-! ### pnl_calculator/pnl/calculator.py : the prototype variant -/

/-- Result record of the prototype `calculate_token_pnl` (it has fewer
fields than the `pnl_engine.py` one: no address, invested, ROI,
positions_opened or warnings). -/
structure ProtoTokenPNL where
  ticker : String
  current_balance : ℚ
  current_price : ℚ
  current_value : ℚ
  avg_cost_basis : ℚ
  realized_pnl : ℚ
  unrealized_pnl : ℚ
  total_pnl : ℚ
  positions_closed : ℕ
  deriving DecidableEq

/-- One iteration of the prototype's transfer loop over
`(buy_queue, realized_pnl)`. The prototype takes `qty` without `abs`
for IN (it appends a lot even when `qty ≤ 0`, with `cost_per_unit = 0`
in that case), skips OUT silently when the queue is empty, uses
`abs(qty)` as `sell_qty`, has no price fallback and emits no warnings;
its matching loop is the plain-division one. -/
def proto_step (st : List FIFOPosition × ℚ) (t : TokenTransfer) :
    List FIFOPosition × ℚ :=
  let qty := format_balance (some t.delta_raw) (some t.decimals)
  let usd_value := t.delta_quote.getD 0
  let gas_usd := t.gas_quote.getD 0
  match t.transfer_type with
  | TransferType.IN =>
    let cost_per_unit := if qty > 0 then (usd_value + gas_usd) / qty else 0
    (st.1 ++ [⟨qty, cost_per_unit, gas_usd⟩], st.2)
  | TransferType.OUT =>
    if st.1 = [] then st
    else
      let sell_qty := |qty|
      let r := fifo_match_div usd_value sell_qty gas_usd st.1 sell_qty
      (r.1, st.2 + r.2.1)

/-- The prototype `calculate_token_pnl` from
`pnl_calculator/pnl/calculator.py` (presentation rounding omitted).
It returns a fixed all-zero record when `current_balance == 0` and
otherwise sorts the transfers by timestamp and runs the loop. -/
def proto_calculate_token_pnl (token : TokenAsset)
    (transfers : List TokenTransfer) : ProtoTokenPNL :=
  if token.balance = 0 then
    { ticker := token.ticker,
      current_balance := 0,
      current_price := token.current_price,
      current_value := 0,
      avg_cost_basis := 0,
      realized_pnl := 0,
      unrealized_pnl := 0,
      total_pnl := 0,
      positions_closed := 0 }
  else
    let sorted := transfers.mergeSort (fun a b => decide (a.timestamp ≤ b.timestamp))
    let st := sorted.foldl proto_step ([], 0)
    let remaining_qty := (st.1.map FIFOPosition.qty).sum
    let remaining_cost := (st.1.map (fun p => p.qty * p.cost_per_unit)).sum
    let avg_cost_basis := if remaining_qty > 0 then remaining_cost / remaining_qty else 0
    let unrealized_pnl := (token.current_price - avg_cost_basis) * token.balance
    { ticker := token.ticker,
      current_balance := token.balance,
      current_price := token.current_price,
      current_value := token.current_value,
      avg_cost_basis := avg_cost_basis,
      realized_pnl := st.2,
      unrealized_pnl := unrealized_pnl,
      total_pnl := st.2 + unrealized_pnl,
      positions_closed :=
        (sorted.filter (fun t => decide (t.transfer_type = TransferType.OUT))).length }

/-! ### pnl_calculator.py : WalletPNLCalculator._aggregate_wallet_pnl -/

/-- The `WalletPNL` record (token list plus the six aggregate totals). -/
structure WalletPNL where
  wallet : String
  chain : String
  tokens : List TokenPNL
  total_invested : ℚ
  total_current_value : ℚ
  total_realized_pnl : ℚ
  total_unrealized_pnl : ℚ
  total_pnl : ℚ
  total_roi_percent : ℚ
  deriving DecidableEq

/-- Embedding of `WalletPNLCalculator._aggregate_wallet_pnl` (presentation rounding
omitted). Python's `sum(...)` over a generator is a left fold from 0. -/
def aggregate_wallet_pnl (wallet chain : String) (token_pnls : List TokenPNL) :
    WalletPNL :=
  let total_invested := token_pnls.foldl (fun acc p => acc + p.total_invested) 0
  let total_current_value := token_pnls.foldl (fun acc p => acc + p.current_value) 0
  let total_realized_pnl := token_pnls.foldl (fun acc p => acc + p.realized_pnl) 0
  let total_unrealized_pnl := token_pnls.foldl (fun acc p => acc + p.unrealized_pnl) 0
  let total_pnl := total_realized_pnl + total_unrealized_pnl
  let total_roi_percent :=
    if total_invested > 0 then
      (total_current_value + total_realized_pnl - total_invested) / total_invested * 100
    else 0
  { wallet := wallet,
    chain := chain,
    tokens := token_pnls,
    total_invested := total_invested,
    total_current_value := total_current_value,
    total_realized_pnl := total_realized_pnl,
    total_unrealized_pnl := total_unrealized_pnl,
    total_pnl := total_pnl,
    total_roi_percent := total_roi_percent }

/-! ### Concrete test fixtures used by the claim theorems -/

/-- Zero-balance token (price 5). -/
def tokenC1 : TokenAsset := ⟨"ZERO", "0xc1", 0, 5, 0⟩

/-- IN transfer of 1 unit recorded at 100 quote units, no gas. -/
def tInC1 : TokenTransfer := ⟨1, TransferType.IN, 1, some 100, none, 0⟩

/-- Token snapshot of the design example: balance 30, price 2500. -/
def tokC2 : TokenAsset := ⟨"TOK", "0xdead", 30, 2500, 75000⟩

/-- BUY 100 units at total cost 100000 (1000 per unit), zero gas. -/
def tIn1 : TokenTransfer := ⟨1, TransferType.IN, 100, some 100000, none, 0⟩

/-- BUY 50 units at total cost 75000 (1500 per unit), zero gas. -/
def tIn2 : TokenTransfer := ⟨2, TransferType.IN, 50, some 75000, none, 0⟩

/-- SELL 120 units at total proceeds 240000, zero gas. -/
def tOutC2 : TokenTransfer := ⟨3, TransferType.OUT, -120, some 240000, none, 0⟩

/-- IN transfer of 10 units with `delta_quote = 0` (unknown price). -/
def transferC3 : TokenTransfer := ⟨7, TransferType.IN, 10, some 0, none, 0⟩

/-- OUT transfer of 3 units against an empty queue. -/
def transferC4 : TokenTransfer := ⟨9, TransferType.OUT, -3, some 6, none, 0⟩

/-- Engine state holding one lot of 5 units at cost 10. -/
def stateC5 : EngineState := ⟨[⟨5, 10, 0⟩], 0, 50, 1, 0, []⟩

/-- OUT transfer of 8 units (more than the 5 held) at proceeds 16. -/
def transferC5 : TokenTransfer := ⟨4, TransferType.OUT, -8, some 16, none, 0⟩

/-- Token with balance 10 and price 1. -/
def tokenC6 : TokenAsset := ⟨"T6", "0x6", 10, 1, 10⟩

/-- IN transfer scaling to 9.95 units (995 raw, 2 decimals) at cost 10. -/
def transferC6 : TokenTransfer := ⟨1, TransferType.IN, 995, some 10, none, 2⟩

/-- Token with balance 2 and price 3 (queue will disagree with balance). -/
def tokenC7 : TokenAsset := ⟨"T7", "0x7", 2, 3, 6⟩

/-- IN transfer of 4 units at total cost 8 (2 per unit). -/
def transferC7 : TokenTransfer := ⟨1, TransferType.IN, 4, some 8, none, 0⟩

/-! ### Helper lemmas: concrete engine runs -/

theorem stepC2a : process_transfer 2500 init_state 0 tIn1 =
    ⟨[⟨100, 1000, 0⟩], 0, 100000, 1, 0, []⟩ := by
  norm_num [process_transfer, init_state, format_balance, tIn1]

theorem stepC2b : process_transfer 2500 ⟨[⟨100, 1000, 0⟩], 0, 100000, 1, 0, []⟩ 1 tIn2 =
    ⟨[⟨100, 1000, 0⟩, ⟨50, 1500, 0⟩], 0, 175000, 2, 0, []⟩ := by
  norm_num [process_transfer, format_balance, tIn2]

theorem stepC2c :
    process_transfer 2500 ⟨[⟨100, 1000, 0⟩, ⟨50, 1500, 0⟩], 0, 175000, 2, 0, []⟩ 2 tOutC2 =
    ⟨[⟨30, 1500, 0⟩], 110000, 175000, 2, 1, []⟩ := by
  norm_num [process_transfer, fifo_match, safe_divide, format_balance, tOutC2,
    List.cons_ne_nil]

theorem engineC2 : run_engine 2500 [tIn1, tIn2, tOutC2] =
    ⟨[⟨30, 1500, 0⟩], 110000, 175000, 2, 1, []⟩ := by
  simp only [run_engine, process_from]
  rw [stepC2a, stepC2b, stepC2c]

theorem engineC1 : run_engine 5 [tInC1] = ⟨[⟨1, 100, 0⟩], 0, 100, 1, 0, []⟩ := by
  simp only [run_engine, process_from]
  norm_num [process_transfer, init_state, format_balance, tInC1]

/-! ### Claim theorems -/

/-- C1 (amended): the prototype `calculate_token_pnl`
(`pnl_calculator/pnl/calculator.py`) returns the all-zero result, with
ticker and price preserved, for every token with `current_balance == 0`
and every transfer list, without processing any transfer. (The
production engine `pnl_engine.py` has no such short-circuit; see the
counterexample.) -/
theorem zero_balance_proto_all_zero (token : TokenAsset)
    (transfers : List TokenTransfer) (h : token.balance = 0) :
    proto_calculate_token_pnl token transfers =
      { ticker := token.ticker,
        current_balance := 0,
        current_price := token.current_price,
        current_value := 0,
        avg_cost_basis := 0,
        realized_pnl := 0,
        unrealized_pnl := 0,
        total_pnl := 0,
        positions_closed := 0 } := by
  simp [proto_calculate_token_pnl, h]

/-- Witness for C1 (amended): a zero-balance token with a non-empty
transfer list yields the all-zero prototype result. -/
theorem zero_balance_proto_all_zero_witness :
    tokenC1.balance = 0 ∧
    proto_calculate_token_pnl tokenC1 [tInC1] =
      { ticker := tokenC1.ticker,
        current_balance := 0,
        current_price := tokenC1.current_price,
        current_value := 0,
        avg_cost_basis := 0,
        realized_pnl := 0,
        unrealized_pnl := 0,
        total_pnl := 0,
        positions_closed := 0 } :=
  ⟨rfl, zero_balance_proto_all_zero tokenC1 [tInC1] rfl⟩

/-- Counterexample to C1 as stated: `PNLCalculator.calculate_token_pnl`
of `pnl_engine.py`, on a token with `current_balance == 0` and a
non-empty transfer list (one IN of 1 unit recorded at 100), processes
the transfer and returns `total_invested = 100`, `positions_opened = 1`
and `roi_percent = -100`, not the all-zero result. -/
theorem zero_balance_engine_counterexample :
    (calculate_token_pnl (1/100) tokenC1 [tInC1]).total_invested = 100 ∧
    (calculate_token_pnl (1/100) tokenC1 [tInC1]).total_invested ≠ 0 ∧
    (calculate_token_pnl (1/100) tokenC1 [tInC1]).positions_opened = 1 ∧
    (calculate_token_pnl (1/100) tokenC1 [tInC1]).roi_percent = -100 := by
  have h : tokenC1.current_price = 5 := rfl
  norm_num [calculate_token_pnl, create_pnl_result, calculate_roi, safe_divide,
    is_approximately_equal, tokenC1, engineC1, List.cons_ne_nil]

/-- C2: on the design example (BUY 100 at 100000, BUY 50 at 75000,
SELL 120 at 240000, zero gas, price 2500, balance 30) the engine
realizes 110000, leaves exactly one lot of 30 units at cost 1500, and
the result has unrealized 30000 and total 140000. -/
theorem example_scenario_fifo :
    (run_engine 2500 [tIn1, tIn2, tOutC2]).realized_pnl = 110000 ∧
    (run_engine 2500 [tIn1, tIn2, tOutC2]).buy_queue = [⟨30, 1500, 0⟩] ∧
    (calculate_token_pnl (1/100) tokC2 [tIn1, tIn2, tOutC2]).realized_pnl = 110000 ∧
    (calculate_token_pnl (1/100) tokC2 [tIn1, tIn2, tOutC2]).unrealized_pnl = 30000 ∧
    (calculate_token_pnl (1/100) tokC2 [tIn1, tIn2, tOutC2]).total_pnl = 140000 := by
  refine ⟨by rw [engineC2], by rw [engineC2], ?_, ?_, ?_⟩ <;>
    norm_num [calculate_token_pnl, create_pnl_result, engineC2, tokC2, safe_divide,
      is_approximately_equal, List.cons_ne_nil]

/-- C3: an IN transfer with positive quantity and `delta_quote` zero or
absent creates a lot at `cost_per_unit = current_price`, appends exactly
one warning referencing that transfer (its number and timestamp), and
increases `total_invested` by the original `delta_quote + gas` — i.e. by
gas alone, not by the fallback valuation. -/
theorem in_transfer_missing_price_fallback (current_price : ℚ) (s : EngineState)
    (i : ℕ) (t : TokenTransfer)
    (htype : t.transfer_type = TransferType.IN)
    (hqty : 0 < |format_balance (some t.delta_raw) (some t.decimals)|)
    (hdq : t.delta_quote = none ∨ t.delta_quote = some 0) :
    process_transfer current_price s i t =
      { s with
        positions_opened := s.positions_opened + 1,
        warnings := s.warnings ++
          [Warning.missing_price (i + 1) t.timestamp current_price],
        buy_queue := s.buy_queue ++
          [⟨|format_balance (some t.delta_raw) (some t.decimals)|,
            current_price, t.gas_quote.getD 0⟩],
        total_invested := s.total_invested + t.gas_quote.getD 0 } := by
  have husd : |t.delta_quote.getD 0| = 0 := by
    rcases hdq with h | h <;> simp [h]
  simp [process_transfer, htype, husd, hqty.not_le]

/-- Witness for C3: `delta_quote = 0`, `current_price = 5`, `qty = 10`
yields a lot with `cost_per_unit = 5` and exactly one warning. -/
theorem in_transfer_missing_price_fallback_witness :
    transferC3.transfer_type = TransferType.IN ∧
    (0:ℚ) < |format_balance (some transferC3.delta_raw) (some transferC3.decimals)| ∧
    process_transfer 5 init_state 0 transferC3 =
      { init_state with
        positions_opened := init_state.positions_opened + 1,
        warnings := init_state.warnings ++
          [Warning.missing_price (0 + 1) transferC3.timestamp 5],
        buy_queue := init_state.buy_queue ++
          [⟨|format_balance (some transferC3.delta_raw) (some transferC3.decimals)|,
            5, transferC3.gas_quote.getD 0⟩],
        total_invested := init_state.total_invested + transferC3.gas_quote.getD 0 } :=
  ⟨rfl, by norm_num [format_balance, transferC3],
    in_transfer_missing_price_fallback 5 init_state 0 transferC3 rfl
      (by norm_num [format_balance, transferC3]) (Or.inr rfl)⟩

/-- C4: an OUT transfer with positive quantity arriving while the lot
queue is empty leaves `realized_pnl`, `total_invested` and
`positions_closed` (indeed the whole state) unchanged except for exactly
one appended warning, and the loop continues with the remaining
transfers. (The embedding is a total function, so no exception can be
raised.) -/
theorem out_transfer_empty_queue_skipped (current_price : ℚ) (s : EngineState)
    (i : ℕ) (t : TokenTransfer) (ts : List TokenTransfer)
    (htype : t.transfer_type = TransferType.OUT)
    (hqty : 0 < |format_balance (some t.delta_raw) (some t.decimals)|)
    (hempty : s.buy_queue = []) :
    process_transfer current_price s i t =
      { s with warnings := s.warnings ++ [Warning.sell_without_prior_buy (i + 1)] } ∧
    process_from current_price s i (t :: ts) =
      process_from current_price
        { s with warnings := s.warnings ++ [Warning.sell_without_prior_buy (i + 1)] }
        (i + 1) ts := by
  have h1 : process_transfer current_price s i t =
      { s with warnings := s.warnings ++ [Warning.sell_without_prior_buy (i + 1)] } := by
    simp [process_transfer, htype, hqty.not_le, hempty]
  exact ⟨h1, by rw [process_from, h1]⟩

/-- Witness for C4: an OUT of 3 units against the empty initial state
only appends the warning; processing then continues. -/
theorem out_transfer_empty_queue_skipped_witness :
    init_state.buy_queue = [] ∧
    process_transfer 5 init_state 0 transferC4 =
      { init_state with
        warnings := init_state.warnings ++ [Warning.sell_without_prior_buy (0 + 1)] } :=
  ⟨rfl,
    (out_transfer_empty_queue_skipped 5 init_state 0 transferC4 [] rfl
      (by norm_num [format_balance, transferC4]) rfl).1⟩

/-- When the requested quantity strictly exceeds the total quantity of a
queue of positive lots, the matching loop consumes the whole queue: it
returns the empty queue, realized PNL equal to the sum over the (fully
matched) lots of `exit_value - entry_cost - gas_portion`, and the
unmatched remainder untouched. -/
theorem fifo_match_consume_all (sell_value_usd sell_qty sell_gas_usd : ℚ) :
    ∀ (queue : List FIFOPosition), (∀ p ∈ queue, 0 < p.qty) →
    ∀ remaining : ℚ, (queue.map FIFOPosition.qty).sum < remaining →
    fifo_match sell_value_usd sell_qty sell_gas_usd queue remaining =
      ([],
        (queue.map (fun p => p.qty * safe_divide sell_value_usd sell_qty
          - p.qty * p.cost_per_unit
          - sell_gas_usd * safe_divide p.qty sell_qty)).sum,
        remaining - (queue.map FIFOPosition.qty).sum) := by
  intro queue
  induction queue with
  | nil => intro _ remaining _; simp [fifo_match]
  | cons position rest ih =>
    intro hpos remaining hgt
    have hq : 0 < position.qty := hpos position (List.mem_cons_self _ _)
    have hrestpos : ∀ p ∈ rest, 0 < p.qty :=
      fun p hp => hpos p (List.mem_cons_of_mem _ hp)
    have hsumcons : ((position :: rest).map FIFOPosition.qty).sum
        = position.qty + (rest.map FIFOPosition.qty).sum := by simp
    have hlt : position.qty < remaining := by
      have hsum0 : 0 ≤ (rest.map FIFOPosition.qty).sum := by
        apply List.sum_nonneg
        intro x hx
        obtain ⟨p, hp, rfl⟩ := List.mem_map.mp hx
        exact (hrestpos p hp).le
      rw [hsumcons] at hgt
      linarith
    have h0 : ¬ remaining ≤ 0 := by push_neg; linarith
    have hmin : min remaining position.qty = position.qty := min_eq_right hlt.le
    have hrec := ih hrestpos (remaining - position.qty)
      (by rw [hsumcons] at hgt; linarith)
    simp only [fifo_match, hmin, if_neg h0, sub_self,
      if_pos (le_refl (0:ℚ)), hrec]
    simp only [hsumcons, List.map_cons, List.sum_cons]
    refine Prod.ext rfl (Prod.ext ?_ ?_) <;> (simp; try ring)

/-- C5: an OUT transfer whose quantity strictly exceeds the total
quantity held in a (positive-lot) queue empties the queue, adds to
`realized_pnl` only the matched lots' `exit_value - entry_cost -
gas_portion` terms (the unmatched remainder contributes nothing), and
appends exactly one "sold more than bought" warning carrying the
unmatched quantity. -/
theorem oversell_consumes_queue_and_warns (current_price : ℚ) (s : EngineState)
    (i : ℕ) (t : TokenTransfer)
    (htype : t.transfer_type = TransferType.OUT)
    (hpos : ∀ p ∈ s.buy_queue, 0 < p.qty)
    (hne : s.buy_queue ≠ [])
    (hgt : (s.buy_queue.map FIFOPosition.qty).sum
        < |format_balance (some t.delta_raw) (some t.decimals)|) :
    process_transfer current_price s i t =
      { s with
        positions_closed := s.positions_closed + 1,
        buy_queue := [],
        realized_pnl := s.realized_pnl +
          (s.buy_queue.map (fun p =>
            p.qty * safe_divide
              (if |t.delta_quote.getD 0| = 0
                then |format_balance (some t.delta_raw) (some t.decimals)| * current_price
                else |t.delta_quote.getD 0|)
              |format_balance (some t.delta_raw) (some t.decimals)|
            - p.qty * p.cost_per_unit
            - t.gas_quote.getD 0 * safe_divide p.qty
                |format_balance (some t.delta_raw) (some t.decimals)|)).sum,
        warnings :=
          (if |t.delta_quote.getD 0| = 0
            then s.warnings ++ [Warning.no_sale_price (i + 1)]
            else s.warnings) ++
          [Warning.sold_more_than_bought
            (|format_balance (some t.delta_raw) (some t.decimals)|
              - (s.buy_queue.map FIFOPosition.qty).sum)] } := by
  have hsum0 : 0 ≤ (s.buy_queue.map FIFOPosition.qty).sum := by
    apply List.sum_nonneg
    intro x hx
    obtain ⟨p, hp, rfl⟩ := List.mem_map.mp hx
    exact (hpos p hp).le
  have hQ : 0 < |format_balance (some t.delta_raw) (some t.decimals)| := by
    linarith
  have hrec := fifo_match_consume_all
    (if |t.delta_quote.getD 0| = 0
      then |format_balance (some t.delta_raw) (some t.decimals)| * current_price
      else |t.delta_quote.getD 0|)
    |format_balance (some t.delta_raw) (some t.decimals)|
    (t.gas_quote.getD 0) s.buy_queue hpos
    |format_balance (some t.delta_raw) (some t.decimals)| hgt
  simp only [process_transfer, htype, if_neg hQ.not_le, if_neg hne, hrec,
    if_pos (by linarith : (0:ℚ) <
      |format_balance (some t.delta_raw) (some t.decimals)|
        - (s.buy_queue.map FIFOPosition.qty).sum)]

/-- Witness for C5: selling 8 units against a single 5-unit lot at cost
10 with proceeds 16 empties the queue and warns about 3 unmatched. -/
theorem oversell_consumes_queue_and_warns_witness :
    (∀ p ∈ stateC5.buy_queue, 0 < p.qty) ∧
    (stateC5.buy_queue.map FIFOPosition.qty).sum
      < |format_balance (some transferC5.delta_raw) (some transferC5.decimals)| ∧
    process_transfer 2 stateC5 0 transferC5 =
      { stateC5 with
        positions_closed := stateC5.positions_closed + 1,
        buy_queue := [],
        realized_pnl := stateC5.realized_pnl +
          (stateC5.buy_queue.map (fun p =>
            p.qty * safe_divide
              (if |transferC5.delta_quote.getD 0| = 0
                then |format_balance (some transferC5.delta_raw)
                    (some transferC5.decimals)| * 2
                else |transferC5.delta_quote.getD 0|)
              |format_balance (some transferC5.delta_raw) (some transferC5.decimals)|
            - p.qty * p.cost_per_unit
            - transferC5.gas_quote.getD 0 * safe_divide p.qty
                |format_balance (some transferC5.delta_raw) (some transferC5.decimals)|)).sum,
        warnings :=
          (if |transferC5.delta_quote.getD 0| = 0
            then stateC5.warnings ++ [Warning.no_sale_price (0 + 1)]
            else stateC5.warnings) ++
          [Warning.sold_more_than_bought
            (|format_balance (some transferC5.delta_raw) (some transferC5.decimals)|
              - (stateC5.buy_queue.map FIFOPosition.qty).sum)] } :=
  ⟨by norm_num [stateC5],
    by norm_num [stateC5, transferC5, format_balance],
    oversell_consumes_queue_and_warns 2 stateC5 0 transferC5 rfl
      (by norm_num [stateC5])
      (by norm_num [stateC5])
      (by norm_num [stateC5, transferC5, format_balance])⟩

/-- C6: after processing a non-empty transfer list, the
balance-mismatch warning is appended if and only if
`|remaining_qty - current_balance| > current_balance * price_tolerance`,
and the result is produced either way (the warnings are otherwise
exactly the engine's). -/
theorem balance_mismatch_warning_iff (price_tolerance : ℚ) (token : TokenAsset)
    (transfers : List TokenTransfer) (h : transfers ≠ []) :
    ((calculate_token_pnl price_tolerance token transfers).warnings =
        (run_engine token.current_price transfers).warnings ++
          [Warning.balance_mismatch
            ((run_engine token.current_price transfers).buy_queue.map
              FIFOPosition.qty).sum
            token.balance
            |((run_engine token.current_price transfers).buy_queue.map
              FIFOPosition.qty).sum - token.balance|]
      ↔ token.balance * price_tolerance <
          |((run_engine token.current_price transfers).buy_queue.map
            FIFOPosition.qty).sum - token.balance|) ∧
    ((calculate_token_pnl price_tolerance token transfers).warnings =
        (run_engine token.current_price transfers).warnings
      ↔ ¬ token.balance * price_tolerance <
          |((run_engine token.current_price transfers).buy_queue.map
            FIFOPosition.qty).sum - token.balance|) := by
  have happend : ∀ (w : List Warning) (x : Warning), ¬ w ++ [x] = w := by
    intro w x hw
    have := congrArg List.length hw
    simp at this
  by_cases hc : is_approximately_equal
      ((run_engine token.current_price transfers).buy_queue.map FIFOPosition.qty).sum
      token.balance (token.balance * price_tolerance)
  · have hc' : ¬ token.balance * price_tolerance <
        |((run_engine token.current_price transfers).buy_queue.map
          FIFOPosition.qty).sum - token.balance| := not_lt.mpr hc
    simp [calculate_token_pnl, create_pnl_result, h, hc, hc', happend]
  · have hc' : token.balance * price_tolerance <
        |((run_engine token.current_price transfers).buy_queue.map
          FIFOPosition.qty).sum - token.balance| :=
      not_le.mp hc
    simp [calculate_token_pnl, create_pnl_result, h, hc, hc', happend]

/-- The engine run behind the C6 witness: one IN of 9.95 units at cost
10 leaves a single lot of 9.95 units and no engine warnings. -/
theorem engineC6 : run_engine 1 [transferC6] =
    ⟨[⟨199/20, 200/199, 0⟩], 0, 10, 1, 0, []⟩ := by
  simp only [run_engine, process_from]
  norm_num [process_transfer, init_state, format_balance, transferC6,
    abs_of_pos (show (0:ℚ) < 199/20 by norm_num)]

/-- Arithmetic fact used by the C6 witness. -/
theorem absC6 : |(199/20 : ℚ) - 10| = 1/20 := by
  rw [abs_of_nonpos (by norm_num)]
  norm_num

/-- Arithmetic fact used by the C6 witness. -/
theorem absC6' : |(1/20 : ℚ)| = 1/20 :=
  abs_of_pos (by norm_num)

/-- Witness for C6: with `remaining_qty = 9.95` and balance 10,
tolerance fraction 1/100 produces no mismatch warning while tolerance
fraction 1/1000 appends exactly the mismatch warning. -/
theorem balance_mismatch_warning_iff_witness :
    (([transferC6] : List TokenTransfer) ≠ []) ∧
    (calculate_token_pnl (1/100) tokenC6 [transferC6]).warnings = [] ∧
    (calculate_token_pnl (1/1000) tokenC6 [transferC6]).warnings =
      [Warning.balance_mismatch (199/20) 10 (1/20)] :=
  ⟨List.cons_ne_nil _ _,
    by
      have h1 := (balance_mismatch_warning_iff (1/100) tokenC6 [transferC6]
        (List.cons_ne_nil _ _)).2
      rw [h1.mpr (by norm_num [tokenC6, engineC6, absC6, absC6'])]
      norm_num [tokenC6, engineC6],
    by
      have h2 := (balance_mismatch_warning_iff (1/1000) tokenC6 [transferC6]
        (List.cons_ne_nil _ _)).1
      rw [h2.mpr (by norm_num [tokenC6, engineC6, absC6, absC6'])]
      norm_num [tokenC6, engineC6, absC6, absC6']⟩

/-- C7: in the normal case (non-empty transfer list), `unrealized_pnl`
is `(current_price - avg_cost_basis) * current_balance` with the
reported balance (not the reconstructed queue quantity), and
`avg_cost_basis` is the safe quotient `remaining_cost / remaining_qty`
over the leftover lots, 0 when `remaining_qty = 0`. -/
theorem unrealized_pnl_formula (price_tolerance : ℚ) (token : TokenAsset)
    (transfers : List TokenTransfer) (h : transfers ≠ []) :
    (calculate_token_pnl price_tolerance token transfers).unrealized_pnl =
      (token.current_price -
        safe_divide
          ((run_engine token.current_price transfers).buy_queue.map
            (fun p => p.qty * p.cost_per_unit)).sum
          ((run_engine token.current_price transfers).buy_queue.map
            FIFOPosition.qty).sum) * token.balance ∧
    (calculate_token_pnl price_tolerance token transfers).avg_cost_basis =
      safe_divide
        ((run_engine token.current_price transfers).buy_queue.map
          (fun p => p.qty * p.cost_per_unit)).sum
        ((run_engine token.current_price transfers).buy_queue.map
          FIFOPosition.qty).sum ∧
    (((run_engine token.current_price transfers).buy_queue.map
        FIFOPosition.qty).sum = 0 →
      (calculate_token_pnl price_tolerance token transfers).avg_cost_basis = 0) := by
  refine ⟨?_, ?_, ?_⟩
  · simp [calculate_token_pnl, create_pnl_result, h]
  · simp [calculate_token_pnl, create_pnl_result, h]
  · intro h0
    simp [calculate_token_pnl, create_pnl_result, h, h0, safe_divide]

/-- Witness for C7: balance 2, price 3, one IN of 4 units at cost 2 per
unit; unrealized PNL is `(3 - 2) * 2 = 2` even though the queue holds 4
units, not the balance of 2. -/
theorem unrealized_pnl_formula_witness :
    (([transferC7] : List TokenTransfer) ≠ []) ∧
    (calculate_token_pnl (1/100) tokenC7 [transferC7]).unrealized_pnl = 2 :=
  ⟨List.cons_ne_nil _ _,
    by
      have h1 := (unrealized_pnl_formula (1/100) tokenC7 [transferC7]
        (List.cons_ne_nil _ _)).1
      rw [h1]
      have he : run_engine tokenC7.current_price [transferC7] =
          ⟨[⟨4, 2, 0⟩], 0, 8, 1, 0, []⟩ := by
        simp only [run_engine, process_from]
        norm_num [process_transfer, init_state, format_balance, tokenC7, transferC7]
      rw [he]
      norm_num [safe_divide, tokenC7]⟩

/-- Python's `sum(f(p) for p in l)` — a left fold from an accumulator —
equals the sum of the mapped list. -/
theorem foldl_add_eq_sum (f : TokenPNL → ℚ) :
    ∀ (l : List TokenPNL) (a : ℚ),
      l.foldl (fun acc p => acc + f p) a = a + (l.map f).sum := by
  intro l
  induction l with
  | nil => intro a; simp
  | cons p rest ih =>
    intro a
    simp [List.foldl_cons, ih, add_assoc]

/-- C8: wallet aggregation sums `total_invested`, `current_value`,
`realized_pnl` and `unrealized_pnl` arithmetically over the token
results, sets `total_pnl = total_realized + total_unrealized`, computes
`total_roi_percent` by the stated formula when `total_invested > 0` and
0 otherwise, and maps the empty collection to the all-zero `WalletPNL`. -/
theorem aggregate_wallet_pnl_sums (wallet chain : String)
    (token_pnls : List TokenPNL) :
    (aggregate_wallet_pnl wallet chain token_pnls).total_invested =
      (token_pnls.map TokenPNL.total_invested).sum ∧
    (aggregate_wallet_pnl wallet chain token_pnls).total_current_value =
      (token_pnls.map TokenPNL.current_value).sum ∧
    (aggregate_wallet_pnl wallet chain token_pnls).total_realized_pnl =
      (token_pnls.map TokenPNL.realized_pnl).sum ∧
    (aggregate_wallet_pnl wallet chain token_pnls).total_unrealized_pnl =
      (token_pnls.map TokenPNL.unrealized_pnl).sum ∧
    (aggregate_wallet_pnl wallet chain token_pnls).total_pnl =
      (aggregate_wallet_pnl wallet chain token_pnls).total_realized_pnl +
        (aggregate_wallet_pnl wallet chain token_pnls).total_unrealized_pnl ∧
    (aggregate_wallet_pnl wallet chain token_pnls).total_roi_percent =
      (if 0 < (token_pnls.map TokenPNL.total_invested).sum then
        ((token_pnls.map TokenPNL.current_value).sum +
            (token_pnls.map TokenPNL.realized_pnl).sum -
            (token_pnls.map TokenPNL.total_invested).sum) /
          (token_pnls.map TokenPNL.total_invested).sum * 100
      else 0) ∧
    aggregate_wallet_pnl wallet chain [] =
      ⟨wallet, chain, [], 0, 0, 0, 0, 0, 0⟩ := by
  refine ⟨?_, ?_, ?_, ?_, ?_, ?_, ?_⟩ <;>
    simp [aggregate_wallet_pnl, foldl_add_eq_sum]

/-- The checked matching loop really fails on a zero denominator: with
`sell_qty = 0` the first executed iteration returns `none`. A `some`
result of the checked engine is therefore informative. -/
theorem fifo_match_checked_fails_on_zero_denominator :
    fifo_match_checked 5 0 0 [⟨1, 1, 0⟩] 1 = none := by
  norm_num [fifo_match_checked, checked_div]

/-- When the sale quantity is nonzero, no iteration of the checked
matching loop fails, and it computes exactly `fifo_match`'s result. -/
theorem fifo_match_checked_eq (sell_value_usd sell_qty sell_gas_usd : ℚ)
    (hsq : sell_qty ≠ 0) :
    ∀ (queue : List FIFOPosition) (remaining : ℚ),
      fifo_match_checked sell_value_usd sell_qty sell_gas_usd queue remaining =
        some (fifo_match sell_value_usd sell_qty sell_gas_usd queue remaining) := by
  intro queue
  induction queue with
  | nil => intro remaining; simp [fifo_match, fifo_match_checked]
  | cons position rest ih =>
    intro remaining
    by_cases h0 : remaining ≤ 0
    · simp [fifo_match, fifo_match_checked, h0]
    · by_cases hdone : position.qty - min remaining position.qty ≤ 0
      · simp [fifo_match, fifo_match_checked, h0, hdone, checked_div, safe_divide,
          hsq, ih]
      · simp [fifo_match, fifo_match_checked, h0, hdone, checked_div, safe_divide,
          hsq]

/-- The engine step never executes a division with a zero denominator:
the checked step always succeeds, with the real step's state. The IN
branch division is reached only past the `qty <= 0` filter, and the
matching loop only runs with `sell_qty = qty > 0`. -/
theorem process_transfer_checked_eq (current_price : ℚ) (s : EngineState) (i : ℕ)
    (t : TokenTransfer) :
    process_transfer_checked current_price s i t =
      some (process_transfer current_price s i t) := by
  by_cases hq : |format_balance (some t.delta_raw) (some t.decimals)| ≤ 0
  · simp [process_transfer, process_transfer_checked, hq]
  · have hq' : |format_balance (some t.delta_raw) (some t.decimals)| ≠ 0 :=
      (not_le.mp hq).ne'
    cases htt : t.transfer_type
    · by_cases husd : |t.delta_quote.getD 0| = 0
      · simp [process_transfer, process_transfer_checked, hq, htt, husd]
      · simp [process_transfer, process_transfer_checked, hq, htt, husd,
          checked_div, hq']
    · by_cases hempty : s.buy_queue = []
      · simp [process_transfer, process_transfer_checked, hq, htt, hempty]
      · simp [process_transfer, process_transfer_checked, hq, htt, hempty,
          fifo_match_checked_eq _ _ _ hq']

/-- Helper for C9: the checked transfer loop succeeds from any start
state, with the real loop's state. -/
theorem process_from_checked_eq (current_price : ℚ) :
    ∀ (ts : List TokenTransfer) (s : EngineState) (i : ℕ),
      process_from_checked current_price s i ts =
        some (process_from current_price s i ts) := by
  intro ts
  induction ts with
  | nil => intro s i; simp [process_from, process_from_checked]
  | cons t rest ih =>
    intro s i
    simp only [process_from, process_from_checked, process_transfer_checked_eq, ih]

/-- C9: no division in the engine ever executes with a zero
denominator. The instrumented engine — in which the `cost_per_unit`
division of the IN branch and both `safe_divide` calls of the matching
loop are replaced by `checked_div`, which returns `none` precisely on a
zero denominator (second conjunct), with `none` propagated through the
run — succeeds on every price and transfer list and returns exactly the
real engine's final state: transfers with `qty <= 0` are filtered before
any branch, the IN division is reached only with `qty > 0`, and the
matching loop's divisions by `sell_qty` are executed only with
`sell_qty = qty > 0`, so `safe_divide`'s zero-denominator default
branch is unreachable there. -/
theorem engine_no_division_by_zero (current_price : ℚ)
    (transfers : List TokenTransfer) :
    run_engine_checked current_price transfers =
      some (run_engine current_price transfers) ∧
    ∀ x : ℚ, checked_div x 0 = none :=
  ⟨by simp [run_engine, run_engine_checked, process_from_checked_eq],
    fun x => by simp [checked_div]⟩

/-- The matching loop preserves positivity of the lot quantities: lots
are only ever popped, or reduced by strictly less than their quantity. -/
theorem fifo_match_preserves_pos (sell_value_usd sell_qty sell_gas_usd : ℚ) :
    ∀ (queue : List FIFOPosition), (∀ p ∈ queue, 0 < p.qty) →
    ∀ (remaining : ℚ),
      ∀ p ∈ (fifo_match sell_value_usd sell_qty sell_gas_usd queue remaining).1,
        0 < p.qty := by
  intro queue
  induction queue with
  | nil => intro _ remaining; simp [fifo_match]
  | cons position rest ih =>
    intro hpos remaining
    have hrestpos : ∀ p ∈ rest, 0 < p.qty :=
      fun p hp => hpos p (List.mem_cons_of_mem _ hp)
    by_cases h0 : remaining ≤ 0
    · simpa [fifo_match, h0] using hpos
    · by_cases hdone : position.qty - min remaining position.qty ≤ 0
      · simpa [fifo_match, h0, hdone] using
          ih hrestpos (remaining - min remaining position.qty)
      · intro p hp
        simp only [fifo_match, if_neg h0, if_pos rfl, if_neg hdone] at hp
        simp only [List.mem_cons] at hp
        rcases hp with rfl | hp
        · simpa using not_le.mp hdone
        · exact hrestpos p hp

/-- One engine step preserves positivity of all lot quantities. -/
theorem process_transfer_preserves_pos (current_price : ℚ) (s : EngineState)
    (i : ℕ) (t : TokenTransfer) (hpos : ∀ p ∈ s.buy_queue, 0 < p.qty) :
    ∀ p ∈ (process_transfer current_price s i t).buy_queue, 0 < p.qty := by
  by_cases hq : |format_balance (some t.delta_raw) (some t.decimals)| ≤ 0
  · simpa [process_transfer, hq] using hpos
  · cases htt : t.transfer_type
    · intro p hp
      simp only [process_transfer, htt, if_neg hq, List.mem_append,
        List.mem_singleton] at hp
      rcases hp with hp | rfl
      · exact hpos p hp
      · exact not_le.mp hq
    · by_cases hempty : s.buy_queue = []
      · simp only [process_transfer, htt, if_neg hq, if_pos hempty]
        exact hpos
      · intro p hp
        simp only [process_transfer, htt, if_neg hq, if_neg hempty] at hp
        exact fifo_match_preserves_pos _ _ _ s.buy_queue hpos _ p hp

/-- C10: from any state whose lots all have positive quantity (in
particular the initial empty queue), every lot left in the buy queue
after the engine processes any transfer list has `qty > 0`; since every
intermediate state is `process_from` of some start state, the invariant
holds after each transfer. -/
theorem buy_queue_positive (current_price : ℚ) :
    ∀ (ts : List TokenTransfer) (s : EngineState) (i : ℕ),
      (∀ p ∈ s.buy_queue, 0 < p.qty) →
      ∀ p ∈ (process_from current_price s i ts).buy_queue, 0 < p.qty := by
  intro ts
  induction ts with
  | nil => intro s i hpos; simp only [process_from]; exact hpos
  | cons t rest ih =>
    intro s i hpos
    exact ih _ _ (process_transfer_preserves_pos current_price s i t hpos)

/-- Witness for C10: after the full design-example run, the surviving
lot has positive quantity. -/
theorem buy_queue_positive_witness :
    (∀ p ∈ init_state.buy_queue, 0 < p.qty) ∧
    ∀ p ∈ (process_from 2500 init_state 0 [tIn1, tIn2, tOutC2]).buy_queue, 0 < p.qty :=
  ⟨by simp [init_state],
    buy_queue_positive 2500 [tIn1, tIn2, tOutC2] init_state 0 (by simp [init_state])⟩

end SovaPnl
